import Mathlib

/-!
Verification of the Network → Lowered-Graph conversion pass of the Ethos-N
support library (`NetworkToGraphConverter.cpp`).  The definitions below are a
shallow embedding of the data model and of the rewrite rules exercised by the
claims: the transpose-convolution builder, the pooling dispatch, the
fully-connected lowering, the concatenation and split visits, and the weight
rotation.  Machine integers of the source (`uint32_t`) are modelled as `Nat`
(the source arithmetic never underflows on supported operations; where the
claims depend on that, it appears as a hypothesis), float scales as `ℚ`
(the source only manipulates exactly-representable scales), and byte vectors
as `List Nat`.
-/

set_option maxHeartbeats 1000000
set_option linter.unusedVariables false

namespace EthosN

/-- A 4-dimensional tensor shape, NHWC order (`TensorShape` in the source:
an array of four `uint32_t`). -/
structure TensorShape where
  d0 : Nat
  d1 : Nat
  d2 : Nat
  d3 : Nat
deriving DecidableEq, Repr

/-- `shape[i]` of the source; out-of-range reads are never performed by the
source on supported operations, modelled as 0. -/
def TensorShape.get (s : TensorShape) (i : Nat) : Nat :=
  match i with
  | 0 => s.d0
  | 1 => s.d1
  | 2 => s.d2
  | 3 => s.d3
  | _ => 0

/-- `shape[i] = v` of the source. -/
def TensorShape.set (s : TensorShape) (i : Nat) (v : Nat) : TensorShape :=
  match i with
  | 0 => { s with d0 := v }
  | 1 => { s with d1 := v }
  | 2 => { s with d2 := v }
  | 3 => { s with d3 := v }
  | _ => s

/-- `QuantizationInfo`: zero point and scale. -/
structure QuantizationInfo where
  zeroPoint : Int
  scale : ℚ
deriving DecidableEq, Repr

/-- `DataType` of the source (only the two quantized types are used). -/
inductive DataType where
  | UINT8_QUANTIZED
  | INT32_QUANTIZED
deriving DecidableEq, Repr

/-- External `DataFormat` (the source's HWIO weight layout is spelled
`HWIOLayout` here). -/
inductive DataFormat where
  | NHWC
  | NHWCB
  | HWIOLayout
  | HWIM
deriving DecidableEq, Repr

/-- `CompilerDataFormat` (the layouts lowered nodes carry). -/
inductive CompilerDataFormat where
  | NHWC
  | NHWCB
deriving DecidableEq, Repr

/-- `TensorInfo`: dimensions, element type, external layout, quantization. -/
structure TensorInfo where
  dims : TensorShape
  dataType : DataType
  dataFormat : DataFormat
  quant : QuantizationInfo
deriving DecidableEq, Repr

/-- `Stride` (x and y components). -/
structure Stride where
  x : Nat
  y : Nat
deriving DecidableEq, Repr

/-- Modelled from the spec: the `Stride()` default constructor (declared in
`Support.hpp`, which is not under `src/`); "stride = default" of the spec,
a unit stride in both dimensions. -/
def defaultStride : Stride := ⟨1, 1⟩

/-- `Padding` (top, bottom, left, right). -/
structure Padding where
  top : Nat
  bottom : Nat
  left : Nat
  right : Nat
deriving DecidableEq, Repr

/-- `command_stream::MceOperation`. -/
inductive MceOp where
  | CONVOLUTION
  | DEPTHWISE_CONVOLUTION
  | FULLY_CONNECTED
deriving DecidableEq, Repr

/-- `command_stream::PleOperation` (the values used by the converter). -/
inductive PleOp where
  | MEAN_XY_8X8
  | AVGPOOL_3X3_1_1_UDMA
  | MAXPOOL_2X2_2_2
  | MAXPOOL_3X3_2_2
  | SIGMOID
  | ADDITION
  | ADDITION_RESCALE
  | INTERLEAVE_2X2_2_2
deriving DecidableEq, Repr

/-- `PoolingType`. -/
inductive PoolingType where
  | AVG
  | MAX
deriving DecidableEq, Repr

/-- `SupportedLevel` verdict of the support oracle. -/
inductive SupportedLevel where
  | Supported
  | EstimateOnly
  | Unsupported
deriving DecidableEq, Repr

/-- `utils::ShapeMultiplier`: a pair (numerator, denominator) for each of
height and width, and a channel multiplier. -/
structure ShapeMultiplier where
  h : Nat × Nat
  w : Nat × Nat
  c : Nat
deriving DecidableEq, Repr

/-- `PoolingInfo`: pooling size (x, y), pooling stride (x, y), padding, type.
Field order matches the source's aggregate-initialisation order. -/
structure PoolingInfo where
  sizeX : Nat
  sizeY : Nat
  strideX : Nat
  strideY : Nat
  padding : Padding
  type : PoolingType
deriving DecidableEq, Repr

/-- `MceOperationNode` constructor arguments (in source order). -/
structure MceOperationNode where
  inputShape : TensorShape
  outputShape : TensorShape
  outQuant : QuantizationInfo
  weightsInfo : TensorInfo
  weightsData : List Nat
  biasInfo : TensorInfo
  biasData : List Int
  stride : Stride
  upscaleFactor : Nat
  padTop : Nat
  padLeft : Nat
  op : MceOp
  format : CompilerDataFormat
  opIds : List Nat
deriving DecidableEq, Repr

/-- `FuseOnlyPleOperationNode` constructor arguments. -/
structure FuseOnlyPleOperationNode where
  outputShape : TensorShape
  outQuant : QuantizationInfo
  op : PleOp
  format : CompilerDataFormat
  shapeMultiplier : ShapeMultiplier
  opIds : List Nat
deriving DecidableEq, Repr

/-- `StandalonePleOperationNode` constructor arguments. -/
structure StandalonePleOperationNode where
  outputShape : TensorShape
  outQuant : QuantizationInfo
  op : PleOp
  format : CompilerDataFormat
  opIds : List Nat
deriving DecidableEq, Repr

/-- `EstimateOnlyNode` constructor arguments. -/
structure EstimateOnlyNode where
  outputShape : TensorShape
  outQuant : QuantizationInfo
  format : CompilerDataFormat
  opIds : List Nat
deriving DecidableEq, Repr

/-- `FormatConversionNode` constructor arguments. -/
structure FormatConversionNode where
  outputShape : TensorShape
  outQuant : QuantizationInfo
  format : CompilerDataFormat
  opIds : List Nat
deriving DecidableEq, Repr

/-- `RequantizeNode` constructor arguments. -/
structure RequantizeNode where
  outputShape : TensorShape
  outQuant : QuantizationInfo
  format : CompilerDataFormat
  opIds : List Nat
deriving DecidableEq, Repr

/-- `ReinterpretNode` constructor arguments. -/
structure ReinterpretNode where
  outputShape : TensorShape
  outQuant : QuantizationInfo
  format : CompilerDataFormat
  opIds : List Nat
deriving DecidableEq, Repr

/-- `ExtractSubtensorNode` constructor arguments. -/
structure ExtractSubtensorNode where
  supertensorOffset : TensorShape
  outputShape : TensorShape
  outQuant : QuantizationInfo
  format : CompilerDataFormat
  opIds : List Nat
deriving DecidableEq, Repr

/-- `ConcatNode` constructor arguments. -/
structure ConcatNode where
  outputShape : TensorShape
  outQuant : QuantizationInfo
  format : CompilerDataFormat
  axis : Nat
  opIds : List Nat
deriving DecidableEq, Repr

/-- The universe of lowered nodes emitted by the conversion pass (the node
kinds the claims exercise). -/
inductive Node where
  | mce (node : MceOperationNode)
  | fusePle (node : FuseOnlyPleOperationNode)
  | standalonePle (node : StandalonePleOperationNode)
  | estimateOnly (node : EstimateOnlyNode)
  | formatConversion (node : FormatConversionNode)
  | requantize (node : RequantizeNode)
  | reinterpret (node : ReinterpretNode)
  | extractSubtensor (node : ExtractSubtensorNode)
  | concat (node : ConcatNode)
deriving DecidableEq, Repr

/-- Output quantization carried by a lowered node. -/
def Node.outQuant : Node → QuantizationInfo
  | .mce m => m.outQuant
  | .fusePle m => m.outQuant
  | .standalonePle m => m.outQuant
  | .estimateOnly m => m.outQuant
  | .formatConversion m => m.outQuant
  | .requantize m => m.outQuant
  | .reinterpret m => m.outQuant
  | .extractSubtensor m => m.outQuant
  | .concat m => m.outQuant

/-- Project an `MceOperationNode` out of a lowered node. -/
def Node.mce? : Node → Option MceOperationNode
  | .mce m => some m
  | _ => none

/-- `utils::DivRoundUp` (Utils.hpp): ceiling division. -/
def DivRoundUp (numerator denominator : Nat) : Nat :=
  (numerator + denominator - 1) / denominator

/-- `utils::RoundUpToNearestMultiple` (Utils.hpp): round `num` up to the
nearest multiple of `nearestMultiple`. -/
def RoundUpToNearestMultiple (num nearestMultiple : Nat) : Nat :=
  DivRoundUp num nearestMultiple * nearestMultiple

/-- `utils::GetNumElements`: product of the four dimensions. -/
def GetNumElements (s : TensorShape) : Nat :=
  s.d0 * s.d1 * s.d2 * s.d3

/-- Size in bytes of one element of the given type. -/
def DataTypeSizeBytes : DataType → Nat
  | .UINT8_QUANTIZED => 1
  | .INT32_QUANTIZED => 4

/-- `utils::TotalSizeBytes`: number of elements times element size. -/
def TotalSizeBytes (t : TensorInfo) : Nat :=
  GetNumElements t.dims * DataTypeSizeBytes t.dataType

/-- Index of the byte that the weight rotation of `CreateTransposeConv`
reads when writing position `k` of the flipped buffer: decomposing
`k = (py·KW + px)·n + j` (with `n = I·O` the contiguous trailing block), the
source is the block at the XY-reflected position `(KH−1−py, KW−1−px)`. -/
def rotateSrcIndex (kh kw n k : Nat) : Nat :=
  let p := k / n
  let j := k % n
  let py := p / kw
  let px := p % kw
  ((kh - 1 - py) * kw + (kw - 1 - px)) * n + j

/-- The weight rotation of `CreateTransposeConv` (lines 114–129): rotate the
weights by 180° in the XY plane, moving the trailing `I·O` bytes of each
`(y, x)` position as one contiguous block. -/
def rotateWeights (kh kw n : Nat) (data : List Nat) : List Nat :=
  (List.range (kh * kw * n)).map fun k => data.getD (rotateSrcIndex kh kw n k) 0

/-- `CreateTransposeConv` (lines 21–139): the shared transpose-convolution
builder.  Returns the emitted node chain.  The local mutation of
`upscaleFactor` and `inputShape` inside the large-kernel branch is modelled
by the `firstPass` triple (emitted head nodes, current upscale factor,
current input shape). -/
def CreateTransposeConv (stride : Stride) (weightsInfo : TensorInfo)
    (weightsData : List Nat) (biasInfo : TensorInfo) (biasData : List Int)
    (padding : Padding) (inputInfo : TensorInfo) (outputInfo : TensorInfo)
    (sourceOperationId : Nat) : List Node :=
  let upscaleFactor := stride.x
  let weightsShape := weightsInfo.dims
  let topMcePadding := weightsShape.d0 - 1 - padding.top
  let leftMcePadding := weightsShape.d1 - 1 - padding.left
  let inputShape := inputInfo.dims
  let firstPass : List Node × Nat × TensorShape :=
    if 7 < weightsShape.d0 ∨ 7 < weightsShape.d1 then
      let intermediateOutputShape : TensorShape :=
        ⟨inputShape.d0, inputShape.d1 * upscaleFactor, inputShape.d2 * upscaleFactor,
          inputShape.d3⟩
      let numIfm := inputShape.d3
      let weightScale : ℚ := 1 / 2
      let biasScale : ℚ := weightScale * inputInfo.quant.scale
      let idWeightsData : List Nat := List.replicate (1 * 1 * 1 * numIfm) 2
      let idBiasData : List Int := List.replicate numIfm 0
      let weightInfo : TensorInfo :=
        ⟨⟨1, 1, numIfm, 1⟩, .UINT8_QUANTIZED, .HWIM, ⟨0, weightScale⟩⟩
      let idBiasInfo : TensorInfo :=
        ⟨⟨1, 1, 1, numIfm⟩, .INT32_QUANTIZED, .NHWC, ⟨0, biasScale⟩⟩
      let identityDepthwiseNode : Node :=
        .mce ⟨inputShape, intermediateOutputShape, inputInfo.quant, weightInfo,
          idWeightsData, idBiasInfo, idBiasData, ⟨1, 1⟩, upscaleFactor, 0, 0,
          .DEPTHWISE_CONVOLUTION, .NHWCB, [sourceOperationId]⟩
      ([identityDepthwiseNode], 1, intermediateOutputShape)
    else
      ([], upscaleFactor, inputShape)
  let flippedWeightsData :=
    rotateWeights weightsShape.d0 weightsShape.d1 (weightsShape.d2 * weightsShape.d3)
      weightsData
  let convNode : Node :=
    .mce ⟨firstPass.2.2, outputInfo.dims, outputInfo.quant, weightsInfo,
      flippedWeightsData, biasInfo, biasData, ⟨1, 1⟩, firstPass.2.1, topMcePadding,
      leftMcePadding, .CONVOLUTION, .NHWCB, [sourceOperationId]⟩
  firstPass.1 ++ [convNode]

/-- The final `MceOperationNode` of a chain, when there is one. -/
def lastMce (nodes : List Node) : Option MceOperationNode :=
  nodes.getLast?.bind Node.mce?

/-! ## Pooling (`NetworkToGraphConverter::Visit(Pooling&)`, lines 168–235) -/

/-- `poolingInfoIfMean` (lines 192–199): the pooling info the incoming info is
compared against for the "mean" pattern — kernel covering the whole input
extent, the incoming strides, zero padding, AVG type. -/
def poolingInfoIfMean (poolingInfo : PoolingInfo) (inputHeight inputWidth : Nat) :
    PoolingInfo :=
  ⟨inputWidth, inputHeight, poolingInfo.strideX, poolingInfo.strideY,
    ⟨0, 0, 0, 0⟩, .AVG⟩

/-- `Visit(Pooling&)`: the dispatch on the pooling info.  `none` models the
`assert(!"Unsupported")` abort of the final branch. -/
def poolingVisit (supportedLevel : SupportedLevel) (poolingInfo : PoolingInfo)
    (inputDims : TensorShape) (outDims : TensorShape) (outQuant : QuantizationInfo)
    (poolingId : Nat) : Option Node :=
  let createFuseOnlyPleNode : PleOp → Node := fun op =>
    .fusePle ⟨outDims, outQuant, op, .NHWCB,
      ⟨(1, poolingInfo.strideY), (1, poolingInfo.strideX), 1⟩, [poolingId]⟩
  let createStandalonePleNode : PleOp → Node := fun op =>
    .standalonePle ⟨outDims, outQuant, op, .NHWCB, [poolingId]⟩
  let inputHeight := inputDims.d1
  let inputWidth := inputDims.d2
  if supportedLevel = .EstimateOnly then
    some (.estimateOnly ⟨outDims, outQuant, .NHWCB, [poolingId]⟩)
  else if poolingInfo = poolingInfoIfMean poolingInfo inputHeight inputWidth then
    some (createFuseOnlyPleNode .MEAN_XY_8X8)
  else if poolingInfo = ⟨3, 3, 1, 1, poolingInfo.padding, .AVG⟩ then
    some (createStandalonePleNode .AVGPOOL_3X3_1_1_UDMA)
  else if poolingInfo = ⟨2, 2, 2, 2, poolingInfo.padding, .MAX⟩ then
    some (createFuseOnlyPleNode .MAXPOOL_2X2_2_2)
  else if poolingInfo = ⟨3, 3, 2, 2, poolingInfo.padding, .MAX⟩ then
    some (createFuseOnlyPleNode .MAXPOOL_3X3_2_2)
  else
    none

/-! ## FullyConnected (`Visit(FullyConnected&)`, lines 284–357) -/

/-- The anonymous `Pad` helper (lines 275–280): `std::vector::resize` to
`newSize`, filling new slots with `padValue` (truncating when `newSize` is
smaller). -/
def PadBytes (input : List Nat) (newSize : Nat) (padValue : Nat) : List Nat :=
  input.take newSize ++ List.replicate (newSize - input.length) padValue

/-- `GetShapeContainingLinearElements` (lines 301–329): the linear-shape
packer choosing the smallest NHWCB shape covering `numElements` 1-D
elements. -/
def GetShapeContainingLinearElements (brickGroupShape : TensorShape)
    (numElements : Nat) : TensorShape :=
  let brickGroupHeight := brickGroupShape.d1
  let brickGroupWidth := brickGroupShape.d2
  let brickGroupChannels := brickGroupShape.d3
  let patchHeight := 4
  let patchWidth := 4
  let patchesPerBrickGroupHeight := brickGroupHeight / patchHeight
  let patchesPerBrickGroupWidth := brickGroupWidth / patchWidth
  let patchesPerBrickGroup :=
    patchesPerBrickGroupHeight * patchesPerBrickGroupWidth * brickGroupChannels
  let numPatches := DivRoundUp numElements (patchWidth * patchHeight)
  let reinterpretedWidth :=
    if numPatches ≤ brickGroupChannels * patchesPerBrickGroupHeight then patchWidth
    else brickGroupWidth
  let reinterpretedHeight :=
    if numPatches ≤ brickGroupChannels then patchHeight else brickGroupHeight
  let numFullBrickGroups := numPatches / patchesPerBrickGroup
  let reinterpretedChannels :=
    brickGroupChannels * numFullBrickGroups +
      min brickGroupChannels (numPatches % patchesPerBrickGroup)
  ⟨1, reinterpretedHeight, reinterpretedWidth, reinterpretedChannels⟩

/-- The linear-shape packer as the spec's words state it, for comparison
with the source definition: `num_patches = ceil(N/16)`, `W = 4` if
`num_patches ≤ BC·(BH/4)` else `BW`, `H = 4` if `num_patches ≤ BC` else `BH`,
`C = BC·floor(num_patches/patches_per_bg) + min(BC, num_patches mod
patches_per_bg)` with `patches_per_bg = (BH/4)·(BW/4)·BC`. -/
def linearShapePackerSpec (brickGroupShape : TensorShape) (numElements : Nat) :
    TensorShape :=
  let BH := brickGroupShape.d1
  let BW := brickGroupShape.d2
  let BC := brickGroupShape.d3
  let numPatches := if numElements % 16 = 0 then numElements / 16 else numElements / 16 + 1
  let patchesPerBg := (BH / 4) * (BW / 4) * BC
  let W := if numPatches ≤ BC * (BH / 4) then 4 else BW
  let H := if numPatches ≤ BC then 4 else BH
  let C := BC * (numPatches / patchesPerBg) + min BC (numPatches % patchesPerBg)
  ⟨1, H, W, C⟩

/-- `Visit(FullyConnected&)` (lines 284–357): the emitted node chain.
`producerFormat` is the layout of the node currently producing the input
operand (`m_OperandToNode[...]->GetFormat()`). -/
def fullyConnectedVisit (producerFormat : CompilerDataFormat)
    (brickGroupShape : TensorShape) (inputInfo : TensorInfo)
    (outputInfo : TensorInfo) (weightsTensorInfo : TensorInfo)
    (weightsData : List Nat) (biasTensorInfo : TensorInfo) (biasData : List Int)
    (fcId : Nat) : List Node :=
  let conversions : List Node :=
    if producerFormat ≠ .NHWC then
      [.formatConversion ⟨inputInfo.dims, inputInfo.quant, .NHWC, [fcId]⟩]
    else []
  let reinterpretedInput :=
    GetShapeContainingLinearElements brickGroupShape (inputInfo.dims.get 3)
  let reinterpretNode : Node :=
    .reinterpret ⟨reinterpretedInput, inputInfo.quant, .NHWCB, [fcId]⟩
  let weightsInfo : TensorInfo :=
    { weightsTensorInfo with
        dims := weightsTensorInfo.dims.set 2
          (RoundUpToNearestMultiple (weightsTensorInfo.dims.get 2) 1024) }
  let paddedWeightsData :=
    PadBytes weightsData (TotalSizeBytes weightsInfo)
      ((weightsInfo.quant.zeroPoint % 256).toNat)
  let fcNode : Node :=
    .mce ⟨inputInfo.dims, outputInfo.dims, outputInfo.quant, weightsInfo,
      paddedWeightsData, biasTensorInfo, biasData, defaultStride, 1, 0, 0,
      .FULLY_CONNECTED, .NHWCB, [fcId]⟩
  conversions ++ [reinterpretNode, fcNode]

/-! ## Concatenation (`Visit(Concatenation&)`, lines 391–485) -/

/-- What the concatenation visit sees of one input operand: its tensor info,
the layout of the node currently producing it (`GetInputFormat`), and how
many consumer operations the operand has (`GetConsumers().size()`). -/
structure ConcatInput where
  info : TensorInfo
  producerFormat : CompilerDataFormat
  numConsumers : Nat
deriving DecidableEq, Repr

/-- Placeholder used for out-of-range `List.getD` reads in statements (never
reached under the stated bounds). -/
def dummyConcatInput : ConcatInput :=
  ⟨⟨⟨0, 0, 0, 0⟩, .UINT8_QUANTIZED, .NHWC, ⟨0, 1⟩⟩, .NHWC, 0⟩

/-- The quantization the concat node reads through `GetInputQuantizationInfo`
for one input edge: the output quantization of the node currently feeding the
edge — the last spliced middle node if any, else the original producer (whose
output quantization is the operand's declared quantization). -/
def edgeProducerQuant (inp : ConcatInput) (chain : List Node) : QuantizationInfo :=
  match chain.getLast? with
  | some nd => nd.outQuant
  | none => inp.info.quant

/-- Append `nd` to the chain spliced onto edge `i` (`Graph::SplitEdge`
inserting `nd` between the edge's current producer and the concat node). -/
def spliceOne : List (List Node) → Nat → Node → List (List Node)
  | [], _, _ => []
  | c :: cs, 0, nd => (c ++ [nd]) :: cs
  | c :: cs, Nat.succ i, nd => c :: spliceOne cs i nd

/-- Apply a collected list of `(edge index, middle node)` splices in order
(the second phase of the source's two-phase collect-then-splice). -/
def spliceAll (chains : List (List Node)) (pairs : List (Nat × Node)) :
    List (List Node) :=
  pairs.foldl (fun cs p => spliceOne cs p.1 p.2) chains

/-- The first phase of a collect-then-splice pass: the `(index, node)` pairs
for the edges satisfying `pred` (the source's `edgeToAddConversion` /
`edgeToAddRequantize` vectors). -/
def collectSplices (numInputs : Nat) (pred : Nat → Prop) [DecidablePred pred]
    (mk : Nat → Node) : List (Nat × Node) :=
  (List.range numInputs).filterMap fun i => if pred i then some (i, mk i) else none

/-- Result of the supported-concatenation lowering: the chosen layout, the
concat node, and for each input edge the middle nodes spliced onto it, in
order from producer towards the concat node. -/
structure ConcatResult where
  format : CompilerDataFormat
  node : ConcatNode
  chains : List (List Node)
deriving DecidableEq, Repr

/-- `Visit(Concatenation&)` lines 429–485: choose NHWCB iff every input's
extent along the concat axis is a multiple of the brick group's, create the
concat node, then two collect-then-splice passes adding `FormatConversion`
nodes (edges whose producer layout differs from the chosen one) and
`Requantize` nodes (edges whose quantization differs from the output's). -/
def concatLower (brickGroupShape : TensorShape) (axis : Nat)
    (outputDims : TensorShape) (concatInfoOutQuant outputQuant : QuantizationInfo)
    (inputs : List ConcatInput) (concatId : Nat) : ConcatResult :=
  let format : CompilerDataFormat :=
    if inputs.all fun inp =>
        inp.info.dims.get axis % brickGroupShape.get axis == 0 then
      .NHWCB
    else .NHWC
  let n : ConcatNode := ⟨outputDims, concatInfoOutQuant, format, axis, [concatId]⟩
  let inputAt := fun i => inputs.getD i dummyConcatInput
  let chains0 : List (List Node) := List.replicate inputs.length []
  let edgeToAddConversion :=
    collectSplices inputs.length (fun i => (inputAt i).producerFormat ≠ format)
      fun i =>
        .formatConversion ⟨(inputAt i).info.dims, (inputAt i).info.quant, format,
          [concatId]⟩
  let chains1 := spliceAll chains0 edgeToAddConversion
  let edgeToAddRequantize :=
    collectSplices inputs.length
      (fun i => edgeProducerQuant (inputAt i) (chains1.getD i []) ≠ outputQuant)
      fun i => .requantize ⟨(inputAt i).info.dims, outputQuant, format, [concatId]⟩
  let chains2 := spliceAll chains1 edgeToAddRequantize
  ⟨format, n, chains2⟩

/-- Outcome of the full concatenation visit. -/
inductive ConcatOutcome where
  | estimateOnly (node : EstimateOnlyNode)
  | lowered (result : ConcatResult)
deriving DecidableEq, Repr

/-- The `NotSupportedException` message of line 414. -/
def concatSharedInputMsg : String :=
  "Inputs to Concatentation cannot be connected to multiple operations"

/-- `Visit(Concatenation&)` (lines 391–485) in full: the shared-consumer
check (lines 409–416, throwing outside estimation mode), then the
`EstimateOnly` branch (lines 418–426), then the supported lowering. -/
def concatVisit (estimationMode : Bool) (supportedLevel : SupportedLevel)
    (brickGroupShape : TensorShape) (axis : Nat) (outputDims : TensorShape)
    (concatInfoOutQuant outputQuant : QuantizationInfo)
    (inputs : List ConcatInput) (concatId : Nat) : Except String ConcatOutcome :=
  if (inputs.any fun inp => decide (1 < inp.numConsumers)) ∧ estimationMode = false then
    .error concatSharedInputMsg
  else if supportedLevel = .EstimateOnly then
    .ok (.estimateOnly ⟨outputDims, outputQuant, .NHWCB, [concatId]⟩)
  else
    .ok (.lowered (concatLower brickGroupShape axis outputDims concatInfoOutQuant
      outputQuant inputs concatId))

/-! ## Split (`Visit(Split&)`, lines 487–556) -/

/-- The `ExtractSubtensor` emission loop of `Visit(Split&)` (lines 538–549):
one node per output, with a running supertensor offset advanced along the
split axis by each output's size. -/
def splitExtract (inputInfo : TensorInfo) (axis : Nat)
    (format : CompilerDataFormat) (splitId : Nat) :
    TensorShape → List Nat → List Node
  | _, [] => []
  | supertensorOffset, s :: rest =>
    .extractSubtensor ⟨supertensorOffset, inputInfo.dims.set axis s, inputInfo.quant,
        format, [splitId]⟩ ::
      splitExtract inputInfo axis format splitId
        (supertensorOffset.set axis (supertensorOffset.get axis + s)) rest

/-- The `ExtractSubtensor` nodes of `Visit(Split&)`, in output order (output
`i` of the split is bound to node `i` by lines 551–555). -/
def splitVisitExtracts (inputInfo : TensorInfo) (axis : Nat) (sizes : List Nat)
    (format : CompilerDataFormat) (splitId : Nat) : List Node :=
  splitExtract inputInfo axis format splitId ⟨0, 0, 0, 0⟩ sizes

/-- Sum of the split sizes before output `i`. -/
def sizesBefore (sizes : List Nat) (i : Nat) : Nat :=
  (sizes.take i).sum

/-- Placeholder node for out-of-range `List.getD` reads in statements. -/
def dummyNode : Node :=
  .estimateOnly ⟨⟨0, 0, 0, 0⟩, ⟨0, 1⟩, .NHWCB, []⟩

/-! ## Helper lemmas -/

theorem getLast?_append_singleton {α : Type} (l : List α) (a : α) :
    (l ++ [a]).getLast? = some a := by
  simp [List.getLast?_concat]

theorem rotateSrcIndex_block (kh kw n y x j : Nat) (hy : y < kh) (hx : x < kw)
    (hj : j < n) :
    rotateSrcIndex kh kw n ((y * kw + x) * n + j) =
      ((kh - 1 - y) * kw + (kw - 1 - x)) * n + j := by
  have hn : 0 < n := by omega
  have hkw : 0 < kw := by omega
  have hdiv : ((y * kw + x) * n + j) / n = y * kw + x := by
    have e : (y * kw + x) * n + j = n * (y * kw + x) + j := by ring
    rw [e, Nat.mul_add_div hn, Nat.div_eq_of_lt hj, Nat.add_zero]
  have hmod : ((y * kw + x) * n + j) % n = j := by
    have e : (y * kw + x) * n + j = n * (y * kw + x) + j := by ring
    rw [e, Nat.mul_add_mod, Nat.mod_eq_of_lt hj]
  have hdiv2 : (y * kw + x) / kw = y := by
    have e : y * kw + x = kw * y + x := by ring
    rw [e, Nat.mul_add_div hkw, Nat.div_eq_of_lt hx, Nat.add_zero]
  have hmod2 : (y * kw + x) % kw = x := by
    have e : y * kw + x = kw * y + x := by ring
    rw [e, Nat.mul_add_mod, Nat.mod_eq_of_lt hx]
  simp only [rotateSrcIndex, hdiv, hmod, hdiv2, hmod2]

theorem rotateSrcIndex_lt (kh kw n y x j : Nat) (hy : y < kh) (hx : x < kw)
    (hj : j < n) :
    ((kh - 1 - y) * kw + (kw - 1 - x)) * n + j < kh * kw * n := by
  have hkh : 0 < kh := by omega
  have hkw : 0 < kw := by omega
  have h1 : (kh - 1 - y) * kw ≤ (kh - 1) * kw :=
    Nat.mul_le_mul_right kw (Nat.sub_le _ _)
  have e : (kh - 1) * kw + kw = kh * kw := by
    calc (kh - 1) * kw + kw = ((kh - 1) + 1) * kw := by ring
    _ = kh * kw := by rw [Nat.sub_add_cancel hkh]
  have hp : (kh - 1 - y) * kw + (kw - 1 - x) < kh * kw := by omega
  have h2 : ((kh - 1 - y) * kw + (kw - 1 - x) + 1) * n ≤ kh * kw * n :=
    Nat.mul_le_mul_right n (Nat.succ_le_of_lt hp)
  calc ((kh - 1 - y) * kw + (kw - 1 - x)) * n + j
      < ((kh - 1 - y) * kw + (kw - 1 - x) + 1) * n := by
        have : ((kh - 1 - y) * kw + (kw - 1 - x) + 1) * n =
            ((kh - 1 - y) * kw + (kw - 1 - x)) * n + n := by ring
        omega
  _ ≤ kh * kw * n := h2

theorem index_decompose (kh kw n k : Nat) (hk : k < kh * kw * n) :
    k / n / kw < kh ∧ k / n % kw < kw ∧ k % n < n ∧
      (k / n / kw * kw + k / n % kw) * n + k % n = k := by
  have hn : 0 < n := by
    rcases Nat.eq_zero_or_pos n with h | h
    · subst h; simp at hk
    · exact h
  have hkw : 0 < kw := by
    rcases Nat.eq_zero_or_pos kw with h | h
    · subst h; simp at hk
    · exact h
  have h1 : k % n < n := Nat.mod_lt _ hn
  have h2 : k / n < kh * kw := by
    rw [Nat.div_lt_iff_lt_mul hn]; exact hk
  have h3 : k / n % kw < kw := Nat.mod_lt _ hkw
  have h4 : k / n / kw < kh := by
    rw [Nat.div_lt_iff_lt_mul hkw]; exact h2
  refine ⟨h4, h3, h1, ?_⟩
  have e1 : k / n / kw * kw + k / n % kw = k / n := by
    have h := Nat.div_add_mod (k / n) kw
    have hc : k / n / kw * kw = kw * (k / n / kw) := Nat.mul_comm _ _
    omega
  rw [e1]
  have h := Nat.div_add_mod k n
  have hc : k / n * n = n * (k / n) := Nat.mul_comm _ _
  omega

theorem rotateWeights_length (kh kw n : Nat) (data : List Nat) :
    (rotateWeights kh kw n data).length = kh * kw * n := by
  simp [rotateWeights]

theorem rotateWeights_getD (kh kw n : Nat) (data : List Nat) (k : Nat)
    (hk : k < kh * kw * n) :
    (rotateWeights kh kw n data).getD k 0 = data.getD (rotateSrcIndex kh kw n k) 0 := by
  rw [List.getD_eq_getElem _ _ (by rw [rotateWeights_length]; exact hk)]
  simp [rotateWeights]

/-! ## Claim C8: transpose-conv weight rotation -/

/-- **C8.** The transpose-conv weight rotation maps `original[y, x, i, o]` to
`flipped[KH−1−y, KW−1−x, i, o]` for every `(y, x)`, moving the trailing
`in_channels · out_channels` bytes (`n = I·O`, block position `j < n`) as one
contiguous block; and for every weights tensor (a byte buffer of size
`KH·KW·I·O`) applying the rotation twice yields the original weights
byte-for-byte. -/
theorem transposeConv_weight_rotation (kh kw n : Nat) (data : List Nat)
    (hlen : data.length = kh * kw * n) :
    (∀ y x j, y < kh → x < kw → j < n →
      (rotateWeights kh kw n data).getD
          (((kh - 1 - y) * kw + (kw - 1 - x)) * n + j) 0 =
        data.getD ((y * kw + x) * n + j) 0) ∧
    rotateWeights kh kw n (rotateWeights kh kw n data) = data := by
  constructor
  · intro y x j hy hx hj
    have hidx : ((kh - 1 - y) * kw + (kw - 1 - x)) * n + j < kh * kw * n :=
      rotateSrcIndex_lt kh kw n y x j hy hx hj
    rw [rotateWeights_getD kh kw n data _ hidx]
    have hy' : kh - 1 - y < kh := by omega
    have hx' : kw - 1 - x < kw := by omega
    have hb := rotateSrcIndex_block kh kw n (kh - 1 - y) (kw - 1 - x) j hy' hx' hj
    have e1 : kh - 1 - (kh - 1 - y) = y := by omega
    have e2 : kw - 1 - (kw - 1 - x) = x := by omega
    rw [e1, e2] at hb
    rw [hb]
  · have hlength : (rotateWeights kh kw n (rotateWeights kh kw n data)).length =
        data.length := by
      rw [rotateWeights_length, hlen]
    apply List.ext_getElem hlength
    intro k h1 h2
    have hk : k < kh * kw * n := hlen ▸ h2
    obtain ⟨hky, hkx, hkj, hkeq⟩ := index_decompose kh kw n k hk
    have hσ : rotateSrcIndex kh kw n k =
        ((kh - 1 - k / n / kw) * kw + (kw - 1 - k / n % kw)) * n + k % n := by
      conv_lhs => rw [← hkeq]
      exact rotateSrcIndex_block kh kw n _ _ _ hky hkx hkj
    have hσlt : rotateSrcIndex kh kw n k < kh * kw * n := by
      rw [hσ]; exact rotateSrcIndex_lt kh kw n _ _ _ hky hkx hkj
    have hσσ : rotateSrcIndex kh kw n (rotateSrcIndex kh kw n k) = k := by
      rw [hσ]
      have hkh : 0 < kh := lt_of_le_of_lt (Nat.zero_le _) hky
      have hkw : 0 < kw := lt_of_le_of_lt (Nat.zero_le _) hkx
      have hy'' : kh - 1 - k / n / kw < kh :=
        lt_of_le_of_lt (Nat.sub_le _ _) (Nat.sub_lt hkh Nat.one_pos)
      have hx'' : kw - 1 - k / n % kw < kw :=
        lt_of_le_of_lt (Nat.sub_le _ _) (Nat.sub_lt hkw Nat.one_pos)
      have hb := rotateSrcIndex_block kh kw n (kh - 1 - k / n / kw)
        (kw - 1 - k / n % kw) (k % n) hy'' hx'' hkj
      have e1 : kh - 1 - (kh - 1 - k / n / kw) = k / n / kw :=
        Nat.sub_sub_self (Nat.le_pred_of_lt hky)
      have e2 : kw - 1 - (kw - 1 - k / n % kw) = k / n % kw :=
        Nat.sub_sub_self (Nat.le_pred_of_lt hkx)
      rw [e1, e2] at hb
      rw [hb, hkeq]
    calc (rotateWeights kh kw n (rotateWeights kh kw n data))[k] =
        (rotateWeights kh kw n (rotateWeights kh kw n data)).getD k 0 :=
          (List.getD_eq_getElem _ _ h1).symm
    _ = (rotateWeights kh kw n data).getD (rotateSrcIndex kh kw n k) 0 :=
          rotateWeights_getD _ _ _ _ _ hk
    _ = data.getD (rotateSrcIndex kh kw n (rotateSrcIndex kh kw n k)) 0 :=
          rotateWeights_getD _ _ _ _ _ hσlt
    _ = data.getD k 0 := by rw [hσσ]
    _ = data[k] := List.getD_eq_getElem _ _ h2

/-- Witness for C8 at a concrete 2×2×1×1 weights tensor. -/
theorem transposeConv_weight_rotation_witness :
    rotateWeights 2 2 1 (rotateWeights 2 2 1 [10, 20, 30, 40]) = [10, 20, 30, 40] ∧
    (rotateWeights 2 2 1 [10, 20, 30, 40]).getD
        (((2 - 1 - 0) * 2 + (2 - 1 - 1)) * 1 + 0) 0 =
      [10, 20, 30, 40].getD ((0 * 2 + 1) * 1 + 0) 0 := by
  have h := transposeConv_weight_rotation 2 2 1 [10, 20, 30, 40] (by decide)
  exact ⟨h.2, h.1 0 1 0 (by decide) (by decide) (by decide)⟩

/-! ## Claims C1, C2: the transpose-convolution builder -/

/-- Concrete sample tensor infos used by the witnesses. -/
def sampleWeightsInfo3x3 : TensorInfo :=
  ⟨⟨3, 3, 1, 1⟩, .UINT8_QUANTIZED, .HWIOLayout, ⟨0, 1⟩⟩

def sampleWeightsInfo8x3 : TensorInfo :=
  ⟨⟨8, 3, 1, 1⟩, .UINT8_QUANTIZED, .HWIOLayout, ⟨0, 1⟩⟩

def sampleBiasInfo : TensorInfo :=
  ⟨⟨1, 1, 1, 1⟩, .INT32_QUANTIZED, .NHWC, ⟨0, 1⟩⟩

def sampleInputInfo : TensorInfo :=
  ⟨⟨1, 4, 4, 1⟩, .UINT8_QUANTIZED, .NHWC, ⟨0, 1⟩⟩

def sampleOutputInfo : TensorInfo :=
  ⟨⟨1, 8, 8, 1⟩, .UINT8_QUANTIZED, .NHWC, ⟨0, 1⟩⟩

/-- **C1.** For every supported transpose convolution (and the DepthToSpace
lowering that delegates to the same builder) with kernel `(KH, KW)`, user
padding `(pad.top, pad.left)` and square stride `s`, the builder's chain ends
in an `MceOperation(CONVOLUTION)` node whose stride is `(1, 1)`, whose top
padding equals `KH − 1 − pad.top`, whose left padding equals
`KW − 1 − pad.left` (both genuine differences: supportedness gives
`pad.top < KH`, `pad.left < KW`), whose output shape and quantization equal
the declared output, and whose upscale factor equals `s` when no large-kernel
split occurred (`KH ≤ 7` and `KW ≤ 7`). -/
theorem transposeConv_emits_final_convolution (s : Nat) (wInfo : TensorInfo)
    (wData : List Nat) (bInfo : TensorInfo) (bData : List Int) (pad : Padding)
    (inInfo outInfo : TensorInfo) (opId : Nat)
    (htop : pad.top < wInfo.dims.d0) (hleft : pad.left < wInfo.dims.d1) :
    ∃ m : MceOperationNode,
      lastMce (CreateTransposeConv ⟨s, s⟩ wInfo wData bInfo bData pad inInfo outInfo
        opId) = some m ∧
      m.op = .CONVOLUTION ∧
      m.stride = ⟨1, 1⟩ ∧
      m.padTop = wInfo.dims.d0 - 1 - pad.top ∧
      m.padTop + pad.top + 1 = wInfo.dims.d0 ∧
      m.padLeft = wInfo.dims.d1 - 1 - pad.left ∧
      m.padLeft + pad.left + 1 = wInfo.dims.d1 ∧
      m.outputShape = outInfo.dims ∧
      m.outQuant = outInfo.quant ∧
      (wInfo.dims.d0 ≤ 7 → wInfo.dims.d1 ≤ 7 → m.upscaleFactor = s) := by
  by_cases h : 7 < wInfo.dims.d0 ∨ 7 < wInfo.dims.d1
  · simp [CreateTransposeConv, lastMce, Node.mce?, h, getLast?_append_singleton]
    exact ⟨by omega, by omega, fun h0 h1 => absurd h (by omega)⟩
  · simp [CreateTransposeConv, lastMce, Node.mce?, h, getLast?_append_singleton]
    exact ⟨by omega, by omega⟩

/-- Witness for C1: a 3×3 transpose convolution with stride 2 and zero
padding (scenario S3 of the spec). -/
theorem transposeConv_emits_final_convolution_witness :
    ∃ m : MceOperationNode,
      lastMce (CreateTransposeConv ⟨2, 2⟩ sampleWeightsInfo3x3 (List.replicate 9 1)
        sampleBiasInfo [0] ⟨0, 0, 0, 0⟩ sampleInputInfo sampleOutputInfo 5) = some m ∧
      m.op = .CONVOLUTION ∧
      m.stride = ⟨1, 1⟩ ∧
      m.padTop = 2 ∧ m.padTop + 0 + 1 = 3 ∧
      m.padLeft = 2 ∧ m.padLeft + 0 + 1 = 3 ∧
      m.outputShape = sampleOutputInfo.dims ∧
      m.outQuant = sampleOutputInfo.quant ∧
      (3 ≤ 7 → 3 ≤ 7 → m.upscaleFactor = 2) :=
  transposeConv_emits_final_convolution 2 sampleWeightsInfo3x3 (List.replicate 9 1)
    sampleBiasInfo [0] ⟨0, 0, 0, 0⟩ sampleInputInfo sampleOutputInfo 5 (by decide)
    (by decide)

/-- **C2.** The builder performs the large-kernel split iff `KH > 7 ∨ KW > 7`:
in that case the chain is exactly an identity depthwise node (1×1 weights of
value 2, weight scale `0.5`, zero bias with bias scale `0.5·input_scale`,
upscale = stride, zero padding, output `(N, H·s, W·s, C)`) followed by the
convolution node with upscale 1 whose input shape is the upscaled shape; with
`KH ≤ 7 ∧ KW ≤ 7` the chain is the single convolution node with upscale equal
to the stride. -/
theorem transposeConv_large_kernel_iff (s : Nat) (wInfo : TensorInfo)
    (wData : List Nat) (bInfo : TensorInfo) (bData : List Int) (pad : Padding)
    (inInfo outInfo : TensorInfo) (opId : Nat) :
    ((7 < wInfo.dims.d0 ∨ 7 < wInfo.dims.d1) ↔
      (CreateTransposeConv ⟨s, s⟩ wInfo wData bInfo bData pad inInfo outInfo
        opId).length = 2) ∧
    ((7 < wInfo.dims.d0 ∨ 7 < wInfo.dims.d1) →
      CreateTransposeConv ⟨s, s⟩ wInfo wData bInfo bData pad inInfo outInfo opId =
        [.mce ⟨inInfo.dims,
            ⟨inInfo.dims.d0, inInfo.dims.d1 * s, inInfo.dims.d2 * s, inInfo.dims.d3⟩,
            inInfo.quant,
            ⟨⟨1, 1, inInfo.dims.d3, 1⟩, .UINT8_QUANTIZED, .HWIM, ⟨0, 1 / 2⟩⟩,
            List.replicate (1 * 1 * 1 * inInfo.dims.d3) 2,
            ⟨⟨1, 1, 1, inInfo.dims.d3⟩, .INT32_QUANTIZED, .NHWC,
              ⟨0, 1 / 2 * inInfo.quant.scale⟩⟩,
            List.replicate inInfo.dims.d3 0, ⟨1, 1⟩, s, 0, 0,
            .DEPTHWISE_CONVOLUTION, .NHWCB, [opId]⟩,
         .mce ⟨⟨inInfo.dims.d0, inInfo.dims.d1 * s, inInfo.dims.d2 * s, inInfo.dims.d3⟩,
            outInfo.dims, outInfo.quant, wInfo,
            rotateWeights wInfo.dims.d0 wInfo.dims.d1 (wInfo.dims.d2 * wInfo.dims.d3)
              wData,
            bInfo, bData, ⟨1, 1⟩, 1, wInfo.dims.d0 - 1 - pad.top,
            wInfo.dims.d1 - 1 - pad.left, .CONVOLUTION, .NHWCB, [opId]⟩]) ∧
    (¬(7 < wInfo.dims.d0 ∨ 7 < wInfo.dims.d1) →
      CreateTransposeConv ⟨s, s⟩ wInfo wData bInfo bData pad inInfo outInfo opId =
        [.mce ⟨inInfo.dims, outInfo.dims, outInfo.quant, wInfo,
            rotateWeights wInfo.dims.d0 wInfo.dims.d1 (wInfo.dims.d2 * wInfo.dims.d3)
              wData,
            bInfo, bData, ⟨1, 1⟩, s, wInfo.dims.d0 - 1 - pad.top,
            wInfo.dims.d1 - 1 - pad.left, .CONVOLUTION, .NHWCB, [opId]⟩]) := by
  by_cases h : 7 < wInfo.dims.d0 ∨ 7 < wInfo.dims.d1
  · refine ⟨by simp [CreateTransposeConv, h], fun _ => ?_, fun hn => absurd h hn⟩
    simp [CreateTransposeConv, h]
  · refine ⟨by simp [CreateTransposeConv, h], fun hp => absurd hp h, fun _ => ?_⟩
    simp [CreateTransposeConv, h]

/-- Witness for C2: an 8×3 kernel yields the two-node chain; a 3×3 kernel
yields the single convolution with upscale equal to the stride. -/
theorem transposeConv_large_kernel_iff_witness :
    (CreateTransposeConv ⟨2, 2⟩ sampleWeightsInfo8x3 (List.replicate 24 1)
      sampleBiasInfo [0] ⟨0, 0, 0, 0⟩ sampleInputInfo sampleOutputInfo 5).length = 2 ∧
    CreateTransposeConv ⟨2, 2⟩ sampleWeightsInfo3x3 (List.replicate 9 1)
      sampleBiasInfo [0] ⟨0, 0, 0, 0⟩ sampleInputInfo sampleOutputInfo 5 =
      [.mce ⟨sampleInputInfo.dims, sampleOutputInfo.dims, sampleOutputInfo.quant,
        sampleWeightsInfo3x3, rotateWeights 3 3 1 (List.replicate 9 1),
        sampleBiasInfo, [0], ⟨1, 1⟩, 2, 2, 2, .CONVOLUTION, .NHWCB, [5]⟩] :=
  ⟨(transposeConv_large_kernel_iff 2 sampleWeightsInfo8x3 (List.replicate 24 1)
      sampleBiasInfo [0] ⟨0, 0, 0, 0⟩ sampleInputInfo sampleOutputInfo 5).1.mp
      (by decide),
   (transposeConv_large_kernel_iff 2 sampleWeightsInfo3x3 (List.replicate 9 1)
      sampleBiasInfo [0] ⟨0, 0, 0, 0⟩ sampleInputInfo sampleOutputInfo 5).2.2
      (by decide)⟩

/-! ## Claim C3: the FullyConnected linear-shape packer -/

/-- **C3.** For every brick-group shape `(1, BH, BW, BC)` and every 1-D
element count `N`, the linear-shape packer returns exactly the shape the spec
describes: `num_patches = ceil(N/16)`, `W = 4` if
`num_patches ≤ BC·(BH/4)` else `BW`, `H = 4` if `num_patches ≤ BC` else `BH`,
and `C = BC·⌊num_patches/patches_per_bg⌋ + min(BC, num_patches mod
patches_per_bg)` with `patches_per_bg = (BH/4)·(BW/4)·BC`. -/
theorem linearShapePacker_matches_spec (bg : TensorShape) (N : Nat) :
    GetShapeContainingLinearElements bg N = linearShapePackerSpec bg N := by
  have h : (N + 4 * 4 - 1) / (4 * 4) = if N % 16 = 0 then N / 16 else N / 16 + 1 := by
    by_cases hN : N % 16 = 0 <;> simp only [hN, if_true, if_false] <;> omega
  simp only [GetShapeContainingLinearElements, linearShapePackerSpec, DivRoundUp, h]

/-! ## Claim C4: FullyConnected weight padding -/

theorem getLast?_append_pair {α : Type} (l : List α) (a b : α) :
    (l ++ [a, b]).getLast? = some b := by
  have h : l ++ [a, b] = (l ++ [a]) ++ [b] := by simp
  rw [h, getLast?_append_singleton]

/-- **C4.** For every FullyConnected operation, the weights' input-channel
dimension (dimension 2) is rounded up to the nearest multiple of 1024 (the
result is a multiple of 1024 in `[orig, orig + 1024)`), and the weights byte
vector is extended to the new total size by appending bytes equal to the
weights tensor's own quantization zero-point (a `uint8` value, hence the
`0 ≤ zp < 256` hypotheses); the emitted `MceOperation(FULLY_CONNECTED)` uses
the padded weights, the original bias, the default stride, upscale factor 1
and zero top/left padding. -/
theorem fullyConnected_weight_padding (pf : CompilerDataFormat) (bg : TensorShape)
    (inInfo outInfo wInfo : TensorInfo) (wData : List Nat) (bInfo : TensorInfo)
    (bData : List Int) (fcId : Nat)
    (hlen : wData.length = TotalSizeBytes wInfo)
    (hzp0 : 0 ≤ wInfo.quant.zeroPoint) (hzp : wInfo.quant.zeroPoint < 256) :
    ∃ m : MceOperationNode,
      lastMce (fullyConnectedVisit pf bg inInfo outInfo wInfo wData bInfo bData fcId) =
        some m ∧
      m.weightsInfo.dims = wInfo.dims.set 2
        (RoundUpToNearestMultiple (wInfo.dims.get 2) 1024) ∧
      m.weightsInfo.dims.get 2 % 1024 = 0 ∧
      wInfo.dims.get 2 ≤ m.weightsInfo.dims.get 2 ∧
      m.weightsInfo.dims.get 2 < wInfo.dims.get 2 + 1024 ∧
      m.weightsInfo.quant = wInfo.quant ∧
      m.weightsData = wData ++ List.replicate
        (TotalSizeBytes m.weightsInfo - wData.length) wInfo.quant.zeroPoint.toNat ∧
      m.biasInfo = bInfo ∧ m.biasData = bData ∧
      m.stride = defaultStride ∧ m.upscaleFactor = 1 ∧ m.padTop = 0 ∧ m.padLeft = 0 ∧
      m.op = .FULLY_CONNECTED := by
  have hr : wInfo.dims.get 2 ≤ RoundUpToNearestMultiple (wInfo.dims.get 2) 1024 := by
    simp only [RoundUpToNearestMultiple, DivRoundUp]
    omega
  have hmono : TotalSizeBytes wInfo ≤ TotalSizeBytes { wInfo with dims := wInfo.dims.set 2 (RoundUpToNearestMultiple (wInfo.dims.get 2) 1024) } := by
    unfold TotalSizeBytes GetNumElements TensorShape.set TensorShape.get at *
    simp only
    exact Nat.mul_le_mul_right _
      (Nat.mul_le_mul_right _ (Nat.mul_le_mul_left _ hr))
  have hzpe : (wInfo.quant.zeroPoint % 256).toNat = wInfo.quant.zeroPoint.toNat := by
    rw [Int.emod_eq_of_lt hzp0 hzp]
  have hlast : lastMce (fullyConnectedVisit pf bg inInfo outInfo wInfo wData bInfo bData fcId) = some ⟨inInfo.dims, outInfo.dims, outInfo.quant, { wInfo with dims := wInfo.dims.set 2 (RoundUpToNearestMultiple (wInfo.dims.get 2) 1024) }, PadBytes wData (TotalSizeBytes { wInfo with dims := wInfo.dims.set 2 (RoundUpToNearestMultiple (wInfo.dims.get 2) 1024) }) ((wInfo.quant.zeroPoint % 256).toNat), bInfo, bData, defaultStride, 1, 0, 0, .FULLY_CONNECTED, .NHWCB, [fcId]⟩ := by
    simp [fullyConnectedVisit, lastMce, Node.mce?, getLast?_append_pair]
  refine ⟨_, hlast, rfl, ?_, hr, ?_, rfl, ?_, rfl, rfl, rfl, rfl, rfl, rfl, rfl⟩
  · simp only [TensorShape.get, TensorShape.set, RoundUpToNearestMultiple, DivRoundUp]
    exact Nat.mul_mod_left _ _
  · simp only [TensorShape.get, TensorShape.set, RoundUpToNearestMultiple, DivRoundUp]
    omega
  · simp only [PadBytes, hzpe]
    rw [List.take_of_length_le (by omega)]

/-- Weights tensor used by the C4 witness: 2 input channels, zero-point 3. -/
def fcSampleWeightsInfo : TensorInfo :=
  ⟨⟨1, 1, 2, 1⟩, .UINT8_QUANTIZED, .HWIOLayout, ⟨3, 1⟩⟩

/-- Witness for C4: a concrete fully-connected lowering with 2 input
channels (padded to 1024) and weights zero-point 3. -/
theorem fullyConnected_weight_padding_witness :
    ∃ m : MceOperationNode,
      lastMce (fullyConnectedVisit .NHWC ⟨1, 8, 8, 16⟩ sampleInputInfo
        sampleOutputInfo fcSampleWeightsInfo [7, 9] sampleBiasInfo [0] 11) = some m ∧
      m.weightsInfo.dims = ⟨1, 1, 1024, 1⟩ ∧
      m.weightsInfo.dims.get 2 % 1024 = 0 ∧
      2 ≤ m.weightsInfo.dims.get 2 ∧
      m.weightsInfo.dims.get 2 < 2 + 1024 ∧
      m.weightsInfo.quant = fcSampleWeightsInfo.quant ∧
      m.weightsData = [7, 9] ++ List.replicate (TotalSizeBytes m.weightsInfo - 2) 3 ∧
      m.biasInfo = sampleBiasInfo ∧ m.biasData = [0] ∧
      m.stride = defaultStride ∧ m.upscaleFactor = 1 ∧ m.padTop = 0 ∧ m.padLeft = 0 ∧
      m.op = .FULLY_CONNECTED :=
  fullyConnected_weight_padding .NHWC ⟨1, 8, 8, 16⟩ sampleInputInfo sampleOutputInfo
    fcSampleWeightsInfo [7, 9] sampleBiasInfo [0] 11 (by decide) (by decide) (by decide)

/-! ## Claim C5: pooling dispatch -/

/-- **C5.** For every supported pooling operation, dispatch is by exact
structural equality on the pooling info, first match winning in source
order: the "mean" pattern (kernel equal to the whole input extent, zero
padding, AVG) yields `FuseOnlyPleOperation(MEAN_XY_8X8)` with shape
multiplier `((1, SY), (1, SX), 1)`; `(3,3,1,1, any padding, AVG)` — when the
earlier mean pattern does not match — yields
`StandalonePleOperation(AVGPOOL_3X3_1_1_UDMA)`; `(2,2,2,2, any padding, MAX)`
yields `FuseOnlyPleOperation(MAXPOOL_2X2_2_2)`; `(3,3,2,2, any padding, MAX)`
yields `FuseOnlyPleOperation(MAXPOOL_3X3_2_2)` (the MAX patterns can never
match the earlier AVG patterns, so they need no precedence guard); every
other supported configuration aborts the pass (`none`). -/
theorem pooling_dispatch (sl : SupportedLevel) (pinfo : PoolingInfo)
    (inDims outDims : TensorShape) (outQuant : QuantizationInfo) (pid : Nat)
    (hsl : sl = .Supported) :
    (pinfo = poolingInfoIfMean pinfo inDims.d1 inDims.d2 →
      poolingVisit sl pinfo inDims outDims outQuant pid =
        some (.fusePle ⟨outDims, outQuant, .MEAN_XY_8X8, .NHWCB,
          ⟨(1, pinfo.strideY), (1, pinfo.strideX), 1⟩, [pid]⟩)) ∧
    (pinfo ≠ poolingInfoIfMean pinfo inDims.d1 inDims.d2 →
      pinfo = ⟨3, 3, 1, 1, pinfo.padding, .AVG⟩ →
      poolingVisit sl pinfo inDims outDims outQuant pid =
        some (.standalonePle ⟨outDims, outQuant, .AVGPOOL_3X3_1_1_UDMA, .NHWCB,
          [pid]⟩)) ∧
    (pinfo = ⟨2, 2, 2, 2, pinfo.padding, .MAX⟩ →
      poolingVisit sl pinfo inDims outDims outQuant pid =
        some (.fusePle ⟨outDims, outQuant, .MAXPOOL_2X2_2_2, .NHWCB,
          ⟨(1, 2), (1, 2), 1⟩, [pid]⟩)) ∧
    (pinfo = ⟨3, 3, 2, 2, pinfo.padding, .MAX⟩ →
      poolingVisit sl pinfo inDims outDims outQuant pid =
        some (.fusePle ⟨outDims, outQuant, .MAXPOOL_3X3_2_2, .NHWCB,
          ⟨(1, 2), (1, 2), 1⟩, [pid]⟩)) ∧
    (pinfo ≠ poolingInfoIfMean pinfo inDims.d1 inDims.d2 →
      pinfo ≠ ⟨3, 3, 1, 1, pinfo.padding, .AVG⟩ →
      pinfo ≠ ⟨2, 2, 2, 2, pinfo.padding, .MAX⟩ →
      pinfo ≠ ⟨3, 3, 2, 2, pinfo.padding, .MAX⟩ →
      poolingVisit sl pinfo inDims outDims outQuant pid = none) := by
  subst hsl
  obtain ⟨px, py, sx, sy, pad, ty⟩ := pinfo
  refine ⟨?_, ?_, ?_, ?_, ?_⟩
  · intro h
    simp only [poolingInfoIfMean, PoolingInfo.mk.injEq] at h
    obtain ⟨h1, h2, _, _, h5, h6⟩ := h
    subst h1; subst h2; subst h5; subst h6
    simp [poolingVisit, poolingInfoIfMean]
  · intro hne h
    simp only [PoolingInfo.mk.injEq] at h
    obtain ⟨h1, h2, h3, h4, _, h6⟩ := h
    subst h1; subst h2; subst h3; subst h4; subst h6
    simp only [poolingInfoIfMean] at hne
    simp [poolingVisit, poolingInfoIfMean, hne]
  · intro h
    simp only [PoolingInfo.mk.injEq] at h
    obtain ⟨h1, h2, h3, h4, _, h6⟩ := h
    subst h1; subst h2; subst h3; subst h4; subst h6
    simp [poolingVisit, poolingInfoIfMean]
  · intro h
    simp only [PoolingInfo.mk.injEq] at h
    obtain ⟨h1, h2, h3, h4, _, h6⟩ := h
    subst h1; subst h2; subst h3; subst h4; subst h6
    simp [poolingVisit, poolingInfoIfMean]
  · intro hne1 hne2 hne3 hne4
    simp [poolingVisit, poolingInfoIfMean, hne2, hne3, hne4]
    intro h1 h2 h3 h4
    exact hne1 (by simp [poolingInfoIfMean, h1, h2, h3, h4])

/-- Witness for C5: a whole-extent average pool (mean), a 2×2 max pool, and
an unsupported 1×1 pool. -/
theorem pooling_dispatch_witness :
    poolingVisit .Supported ⟨8, 8, 2, 2, ⟨0, 0, 0, 0⟩, .AVG⟩ ⟨1, 8, 8, 16⟩
        ⟨1, 4, 4, 16⟩ ⟨0, 1⟩ 3 =
      some (.fusePle ⟨⟨1, 4, 4, 16⟩, ⟨0, 1⟩, .MEAN_XY_8X8, .NHWCB,
        ⟨(1, 2), (1, 2), 1⟩, [3]⟩) ∧
    poolingVisit .Supported ⟨2, 2, 2, 2, ⟨1, 1, 1, 1⟩, .MAX⟩ ⟨1, 8, 8, 16⟩
        ⟨1, 4, 4, 16⟩ ⟨0, 1⟩ 3 =
      some (.fusePle ⟨⟨1, 4, 4, 16⟩, ⟨0, 1⟩, .MAXPOOL_2X2_2_2, .NHWCB,
        ⟨(1, 2), (1, 2), 1⟩, [3]⟩) ∧
    poolingVisit .Supported ⟨1, 1, 1, 1, ⟨0, 0, 0, 0⟩, .MAX⟩ ⟨1, 8, 8, 16⟩
        ⟨1, 8, 8, 16⟩ ⟨0, 1⟩ 3 = none :=
  ⟨(pooling_dispatch _ _ _ _ _ _ rfl).1 (by decide),
   (pooling_dispatch _ _ _ _ _ _ rfl).2.2.1 (by decide),
   (pooling_dispatch _ _ _ _ _ _ rfl).2.2.2.2 (by decide) (by decide) (by decide)
     (by decide)⟩

/-! ## Claim C9: split subtensor extraction -/

theorem TensorShape.get_set_self (s : TensorShape) (a v : Nat) (h : a < 4) :
    (s.set a v).get a = v := by
  rcases a with _ | _ | _ | _ | a
  · rfl
  · rfl
  · rfl
  · rfl
  · omega

theorem TensorShape.set_set_self (s : TensorShape) (a v w : Nat) :
    (s.set a v).set a w = s.set a w := by
  rcases a with _ | _ | _ | _ | a <;> rfl

theorem TensorShape.set_get_self (s : TensorShape) (a : Nat) :
    s.set a (s.get a) = s := by
  rcases a with _ | _ | _ | _ | a <;> rfl

theorem sizesBefore_succ (sizes : List Nat) (i : Nat) (h : i < sizes.length) :
    sizesBefore sizes (i + 1) = sizesBefore sizes i + sizes.getD i 0 := by
  induction sizes generalizing i with
  | nil => simp at h
  | cons s rest ih =>
    cases i with
    | zero => simp [sizesBefore]
    | succ i =>
      simp only [sizesBefore, List.take_succ_cons, List.sum_cons, List.getD_cons_succ]
      have hih := ih i (by simpa using h)
      simp only [sizesBefore] at hih
      omega

theorem splitExtract_length (info : TensorInfo) (axis : Nat)
    (fmt : CompilerDataFormat) (sid : Nat) (sizes : List Nat) (offset : TensorShape) :
    (splitExtract info axis fmt sid offset sizes).length = sizes.length := by
  induction sizes generalizing offset with
  | nil => rfl
  | cons s rest ih => simp [splitExtract, ih]

theorem splitExtract_getD (info : TensorInfo) (axis : Nat)
    (fmt : CompilerDataFormat) (sid : Nat) (sizes : List Nat) :
    ∀ (offset : TensorShape) (i : Nat), i < sizes.length → axis < 4 →
      (splitExtract info axis fmt sid offset sizes).getD i dummyNode =
        .extractSubtensor ⟨offset.set axis (offset.get axis + sizesBefore sizes i),
          info.dims.set axis (sizes.getD i 0), info.quant, fmt, [sid]⟩ := by
  induction sizes with
  | nil => intro _ i h _; simp at h
  | cons s rest ih =>
    intro offset i hi ha
    cases i with
    | zero =>
      simp only [splitExtract, List.getD_cons_zero, sizesBefore, List.take_zero,
        List.sum_nil, Nat.add_zero, TensorShape.set_get_self, List.getD_cons_zero]
    | succ i =>
      simp only [splitExtract, List.getD_cons_succ]
      rw [ih (offset.set axis (offset.get axis + s)) i (by simpa using hi) ha]
      rw [TensorShape.get_set_self _ _ _ ha, TensorShape.set_set_self]
      have e : offset.get axis + s + sizesBefore rest i =
          offset.get axis + sizesBefore (s :: rest) (i + 1) := by
        simp only [sizesBefore, List.take_succ_cons, List.sum_cons]
        omega
      rw [e]

/-- **C9.** For every supported split with axis `a` and sizes
`[s_0 … s_{k-1}]` summing to the input's extent along `a`, the pass emits `k`
`ExtractSubtensor` nodes (output `i` is bound to node `i`, the list position)
whose supertensor offsets start at `(0,0,0,0)` and advance by `s_i` along the
axis after each output: node `i`'s offset along the axis is
`s_0 + ⋯ + s_{i-1}`, consecutive offsets differ by exactly `s_i` (so the
extractions tile the axis without overlap), the offsets plus the final size
sum to the input's axis extent, and every node carries the input's
quantization unchanged. -/
theorem split_extract_tiling (info : TensorInfo) (axis : Nat) (sizes : List Nat)
    (fmt : CompilerDataFormat) (sid : Nat)
    (ha : axis < 4) (hsum : sizes.sum = info.dims.get axis) :
    (splitVisitExtracts info axis sizes fmt sid).length = sizes.length ∧
    (∀ i, i < sizes.length →
      (splitVisitExtracts info axis sizes fmt sid).getD i dummyNode =
        .extractSubtensor ⟨(TensorShape.mk 0 0 0 0).set axis (sizesBefore sizes i),
          info.dims.set axis (sizes.getD i 0), info.quant, fmt, [sid]⟩) ∧
    (∀ i, i < sizes.length →
      sizesBefore sizes i + sizes.getD i 0 = sizesBefore sizes (i + 1)) ∧
    sizesBefore sizes sizes.length = info.dims.get axis := by
  refine ⟨splitExtract_length _ _ _ _ _ _, ?_, ?_, ?_⟩
  · intro i hi
    have h := splitExtract_getD info axis fmt sid sizes ⟨0, 0, 0, 0⟩ i hi ha
    have hz : (TensorShape.mk 0 0 0 0).get axis = 0 := by
      rcases axis with _ | _ | _ | _ | a <;> rfl
    rw [hz, Nat.zero_add] at h
    exact h
  · intro i hi
    exact (sizesBefore_succ sizes i hi).symm
  · simp only [sizesBefore, List.take_length]
    exact hsum

/-- Input tensor used by the C9 witness. -/
def splitSampleInfo : TensorInfo :=
  ⟨⟨1, 8, 8, 16⟩, .UINT8_QUANTIZED, .NHWC, ⟨0, 1⟩⟩

/-- Witness for C9: a split of 16 channels into sizes `[3, 5, 8]`. -/
theorem split_extract_tiling_witness :
    (splitVisitExtracts splitSampleInfo 3 [3, 5, 8] .NHWC 4).length = 3 ∧
    (splitVisitExtracts splitSampleInfo 3 [3, 5, 8] .NHWC 4).getD 1 dummyNode =
      .extractSubtensor ⟨⟨0, 0, 0, 3⟩, ⟨1, 8, 8, 5⟩, splitSampleInfo.quant, .NHWC,
        [4]⟩ ∧
    sizesBefore [3, 5, 8] 3 = 16 := by
  have h := split_extract_tiling splitSampleInfo 3 [3, 5, 8] .NHWC 4 (by decide)
    (by decide)
  exact ⟨h.1, h.2.1 1 (by decide), h.2.2.2⟩

/-! ## Claims C6, C7, C10: concatenation -/

theorem spliceOne_getD (cs : List (List Node)) (i : Nat) (nd : Node) (j : Nat) :
    (spliceOne cs i nd).getD j [] =
      if i = j ∧ j < cs.length then cs.getD j [] ++ [nd] else cs.getD j [] := by
  induction cs generalizing i j with
  | nil => simp [spliceOne]
  | cons c cs ih =>
    cases i with
    | zero =>
      cases j with
      | zero => simp [spliceOne]
      | succ j => simp [spliceOne]
    | succ i =>
      cases j with
      | zero => simp [spliceOne]
      | succ j =>
        simp only [spliceOne, List.getD_cons_succ, List.length_cons]
        have := ih i j
        simpa [Nat.succ_lt_succ_iff] using this

theorem spliceOne_length (cs : List (List Node)) (i : Nat) (nd : Node) :
    (spliceOne cs i nd).length = cs.length := by
  induction cs generalizing i with
  | nil => rfl
  | cons c cs ih =>
    cases i with
    | zero => rfl
    | succ i => simp [spliceOne, ih]

theorem spliceAll_length (cs : List (List Node)) (ps : List (Nat × Node)) :
    (spliceAll cs ps).length = cs.length := by
  induction ps generalizing cs with
  | nil => rfl
  | cons p ps ih =>
    show (spliceAll (spliceOne cs p.1 p.2) ps).length = cs.length
    rw [ih, spliceOne_length]

theorem spliceAll_append (cs : List (List Node)) (ps qs : List (Nat × Node)) :
    spliceAll cs (ps ++ qs) = spliceAll (spliceAll cs ps) qs := by
  simp [spliceAll, List.foldl_append]

theorem collectSplices_succ (n : Nat) (pred : Nat → Prop) [DecidablePred pred]
    (mk : Nat → Node) :
    collectSplices (n + 1) pred mk =
      collectSplices n pred mk ++ (if pred n then [(n, mk n)] else []) := by
  by_cases hp : pred n <;>
    simp [collectSplices, List.range_succ, List.filterMap_append, hp]

theorem spliceAll_collect_getD (cs : List (List Node)) (n : Nat) (pred : Nat → Prop)
    [DecidablePred pred] (mk : Nat → Node) (j : Nat) :
    (spliceAll cs (collectSplices n pred mk)).getD j [] =
      cs.getD j [] ++ (if j < n ∧ j < cs.length ∧ pred j then [mk j] else []) := by
  induction n with
  | zero => simp [collectSplices, spliceAll]
  | succ n ih =>
    rw [collectSplices_succ, spliceAll_append]
    by_cases hp : pred n
    · simp only [hp, if_true]
      show (spliceOne (spliceAll cs (collectSplices n pred mk)) n (mk n)).getD j [] = _
      rw [spliceOne_getD, spliceAll_length, ih]
      by_cases hnj : n = j
      · subst hnj
        by_cases hlen : n < cs.length <;> simp [hlen, hp, Nat.lt_irrefl]
      · have he : (j < n + 1 ∧ j < cs.length ∧ pred j) ↔
            (j < n ∧ j < cs.length ∧ pred j) := by
          constructor <;> rintro ⟨h1, h2, h3⟩ <;> exact ⟨by omega, h2, h3⟩
        simp only [hnj, false_and, if_false, he]
    · simp only [hp, if_false, List.append_nil]
      show (spliceAll cs (collectSplices n pred mk)).getD j [] = _
      rw [ih]
      have he : (j < n + 1 ∧ j < cs.length ∧ pred j) ↔
          (j < n ∧ j < cs.length ∧ pred j) := by
        constructor <;> rintro ⟨h1, h2, h3⟩
        · refine ⟨?_, h2, h3⟩
          rcases Nat.lt_succ_iff_lt_or_eq.mp h1 with h | h
          · exact h
          · subst h; exact absurd h3 hp
        · exact ⟨by omega, h2, h3⟩
      simp only [he]

theorem getD_replicate_nil (n i : Nat) :
    (List.replicate n ([] : List Node)).getD i [] = [] := by
  induction n generalizing i with
  | zero => simp
  | succ n ih =>
    cases i with
    | zero => simp [List.replicate]
    | succ i => simp [List.replicate, ih]

/-- **C6.** For every supported concatenation on axis `a`, the chosen layout
is NHWCB iff every input's extent along `a` is an exact multiple of the brick
group's extent along `a`, and NHWC otherwise; and after the concat node is
connected, the middle nodes spliced onto input edge `i` (in order from the
producer towards the concat node, via the source's two-phase collect-then-
splice passes, modelled by `collectSplices`/`spliceAll`) are exactly: one
`FormatConversion` iff the producer's layout differs from the chosen layout,
followed by one `Requantize` to the output quantization iff the input's
quantization differs from the output's. -/
theorem concat_layout_and_splices (bg : TensorShape) (axis : Nat)
    (outDims : TensorShape) (ciq oq : QuantizationInfo) (inputs : List ConcatInput)
    (cid : Nat) :
    ((concatLower bg axis outDims ciq oq inputs cid).format = .NHWCB ↔
      ∀ inp ∈ inputs, inp.info.dims.get axis % bg.get axis = 0) ∧
    (∀ i, i < inputs.length →
      (concatLower bg axis outDims ciq oq inputs cid).chains.getD i [] =
        (if (inputs.getD i dummyConcatInput).producerFormat ≠
            (concatLower bg axis outDims ciq oq inputs cid).format then
          [.formatConversion ⟨(inputs.getD i dummyConcatInput).info.dims,
            (inputs.getD i dummyConcatInput).info.quant,
            (concatLower bg axis outDims ciq oq inputs cid).format, [cid]⟩]
        else []) ++
        (if (inputs.getD i dummyConcatInput).info.quant ≠ oq then
          [.requantize ⟨(inputs.getD i dummyConcatInput).info.dims, oq,
            (concatLower bg axis outDims ciq oq inputs cid).format, [cid]⟩]
        else [])) := by
  constructor
  · have hfmt : (concatLower bg axis outDims ciq oq inputs cid).format =
        (if (inputs.all fun inp => inp.info.dims.get axis % bg.get axis == 0) = true
          then CompilerDataFormat.NHWCB else CompilerDataFormat.NHWC) := rfl
    rw [hfmt]
    by_cases hall : (inputs.all fun inp =>
        inp.info.dims.get axis % bg.get axis == 0) = true
    · rw [if_pos hall]
      simp only [List.all_eq_true, beq_iff_eq] at hall
      exact iff_of_true rfl hall
    · rw [if_neg hall]
      apply iff_of_false
      · intro h; cases h
      · intro hforall
        apply hall
        exact List.all_eq_true.mpr fun inp hin => beq_iff_eq.mpr (hforall inp hin)
  · intro i hi
    have hgd : inputs.getD i dummyConcatInput = inputs[i] :=
      List.getD_eq_getElem _ _ hi
    simp only [concatLower]
    generalize (if (inputs.all fun inp =>
        inp.info.dims.get axis % bg.get axis == 0) = true
      then CompilerDataFormat.NHWCB else CompilerDataFormat.NHWC) = F
    simp only [spliceAll_collect_getD, getD_replicate_nil, spliceAll_length,
      List.length_replicate, List.nil_append]
    by_cases hC : inputs[i].producerFormat = F <;>
      by_cases hQ : inputs[i].info.quant = oq <;>
        simp [hi, hgd, hC, hQ, edgeProducerQuant, Node.outQuant]

/-- Inputs used by the C6 witness: a 3-channel NHWCB producer with matching
quantization and a 5-channel NHWC producer with differing quantization. -/
def concatSampleInputs : List ConcatInput :=
  [⟨⟨⟨1, 8, 8, 3⟩, .UINT8_QUANTIZED, .NHWC, ⟨0, 1⟩⟩, .NHWCB, 1⟩,
   ⟨⟨⟨1, 8, 8, 5⟩, .UINT8_QUANTIZED, .NHWC, ⟨2, 2⟩⟩, .NHWC, 1⟩]

/-- Witness for C6: channel concat with brick-group channels 16; layout falls
back to NHWC, edge 0 gets a `FormatConversion`, edge 1 a `Requantize`. -/
theorem concat_layout_and_splices_witness :
    (concatLower ⟨1, 8, 8, 16⟩ 3 ⟨1, 8, 8, 8⟩ ⟨0, 1⟩ ⟨0, 1⟩ concatSampleInputs
      9).format ≠ .NHWCB ∧
    (concatLower ⟨1, 8, 8, 16⟩ 3 ⟨1, 8, 8, 8⟩ ⟨0, 1⟩ ⟨0, 1⟩ concatSampleInputs
        9).chains.getD 0 [] =
      [.formatConversion ⟨⟨1, 8, 8, 3⟩, ⟨0, 1⟩, .NHWC, [9]⟩] ∧
    (concatLower ⟨1, 8, 8, 16⟩ 3 ⟨1, 8, 8, 8⟩ ⟨0, 1⟩ ⟨0, 1⟩ concatSampleInputs
        9).chains.getD 1 [] =
      [.requantize ⟨⟨1, 8, 8, 5⟩, ⟨0, 1⟩, .NHWC, [9]⟩] := by
  have h := concat_layout_and_splices ⟨1, 8, 8, 16⟩ 3 ⟨1, 8, 8, 8⟩ ⟨0, 1⟩ ⟨0, 1⟩
    concatSampleInputs 9
  refine ⟨fun hf => ?_, h.2 0 (by decide), h.2 1 (by decide)⟩
  have hall := h.1.mp hf
  exact absurd (hall ⟨⟨⟨1, 8, 8, 3⟩, .UINT8_QUANTIZED, .NHWC, ⟨0, 1⟩⟩, .NHWCB, 1⟩
    (by decide)) (by decide)

/-- **C7.** For every concatenation visited outside estimation mode, if any
input operand has more than one consumer, the pass fails with the
`NotSupported` exception about shared inputs to concatenation; in estimation
mode the same network never triggers this failure (the visit returns a
result). -/
theorem concat_shared_input_rejection (em : Bool) (sl : SupportedLevel)
    (bg : TensorShape) (axis : Nat) (outDims : TensorShape)
    (ciq oq : QuantizationInfo) (inputs : List ConcatInput) (cid : Nat) :
    (em = false → (∃ inp ∈ inputs, 1 < inp.numConsumers) →
      concatVisit em sl bg axis outDims ciq oq inputs cid =
        .error concatSharedInputMsg) ∧
    (em = true →
      (concatVisit em sl bg axis outDims ciq oq inputs cid).isOk = true) := by
  constructor
  · intro hem hex
    have hany : (inputs.any fun inp => decide (1 < inp.numConsumers)) = true := by
      rw [List.any_eq_true]
      obtain ⟨inp, hin, hgt⟩ := hex
      exact ⟨inp, hin, by simpa using hgt⟩
    simp [concatVisit, hem, hany]
  · intro hem
    subst hem
    by_cases hsl : sl = .EstimateOnly <;>
      simp [concatVisit, hsl, Except.isOk, Except.toBool]

/-- Single shared input (two consumers) used by the C7 and C10 witnesses. -/
def concatSharedInputs : List ConcatInput :=
  [⟨⟨⟨1, 8, 8, 16⟩, .UINT8_QUANTIZED, .NHWC, ⟨0, 1⟩⟩, .NHWCB, 2⟩]

/-- Witness for C7: the shared-input network errors outside estimation mode
and succeeds in estimation mode. -/
theorem concat_shared_input_rejection_witness :
    concatVisit false .Supported ⟨1, 8, 8, 16⟩ 3 ⟨1, 8, 8, 16⟩ ⟨0, 1⟩ ⟨0, 1⟩
      concatSharedInputs 9 = .error concatSharedInputMsg ∧
    (concatVisit true .Supported ⟨1, 8, 8, 16⟩ 3 ⟨1, 8, 8, 16⟩ ⟨0, 1⟩ ⟨0, 1⟩
      concatSharedInputs 9).isOk = true :=
  ⟨(concat_shared_input_rejection false .Supported ⟨1, 8, 8, 16⟩ 3 ⟨1, 8, 8, 16⟩
      ⟨0, 1⟩ ⟨0, 1⟩ concatSharedInputs 9).1 rfl
      ⟨⟨⟨⟨1, 8, 8, 16⟩, .UINT8_QUANTIZED, .NHWC, ⟨0, 1⟩⟩, .NHWCB, 2⟩, by decide,
        by decide⟩,
   (concat_shared_input_rejection true .Supported ⟨1, 8, 8, 16⟩ 3 ⟨1, 8, 8, 16⟩
      ⟨0, 1⟩ ⟨0, 1⟩ concatSharedInputs 9).2 rfl⟩

/-- **C10.** The shared-input consumer check runs before the `EstimateOnly`
branch: for every concatenation where some input operand has more than one
consumer and estimation mode is off, the visit throws the `NotSupported`
exception even when the support oracle returned `EstimateOnly`, and no
`EstimateOnly` node is created for that concatenation. -/
theorem concat_shared_check_precedes_estimateOnly (em : Bool) (sl : SupportedLevel)
    (bg : TensorShape) (axis : Nat) (outDims : TensorShape)
    (ciq oq : QuantizationInfo) (inputs : List ConcatInput) (cid : Nat)
    (hem : em = false) (hex : ∃ inp ∈ inputs, 1 < inp.numConsumers)
    (hsl : sl = .EstimateOnly) :
    concatVisit em sl bg axis outDims ciq oq inputs cid =
      .error concatSharedInputMsg ∧
    ∀ nd : EstimateOnlyNode,
      concatVisit em sl bg axis outDims ciq oq inputs cid ≠
        .ok (.estimateOnly nd) := by
  subst hem
  subst hsl
  have hany : (inputs.any fun inp => decide (1 < inp.numConsumers)) = true := by
    rw [List.any_eq_true]
    obtain ⟨inp, hin, hgt⟩ := hex
    exact ⟨inp, hin, by simpa using hgt⟩
  have h : concatVisit false .EstimateOnly bg axis outDims ciq oq inputs cid =
      .error concatSharedInputMsg := by
    simp [concatVisit, hany]
  refine ⟨h, fun nd hcontra => ?_⟩
  rw [h] at hcontra
  cases hcontra

/-- Witness for C10: the shared-input network with an `EstimateOnly` support
verdict still errors outside estimation mode. -/
theorem concat_shared_check_precedes_estimateOnly_witness :
    concatVisit false .EstimateOnly ⟨1, 8, 8, 16⟩ 3 ⟨1, 8, 8, 16⟩ ⟨0, 1⟩ ⟨0, 1⟩
      concatSharedInputs 9 = .error concatSharedInputMsg :=
  (concat_shared_check_precedes_estimateOnly false .EstimateOnly ⟨1, 8, 8, 16⟩ 3
    ⟨1, 8, 8, 16⟩ ⟨0, 1⟩ ⟨0, 1⟩ concatSharedInputs 9 rfl
    ⟨⟨⟨⟨1, 8, 8, 16⟩, .UINT8_QUANTIZED, .NHWC, ⟨0, 1⟩⟩, .NHWCB, 2⟩, by decide,
      by decide⟩ rfl).1

end EthosN
